import Mathlib

/-!
Verification of the `sovereign_recursion` package (ledger, recursion engine,
loop runner) against its natural-language specification.

The Python modules are shallowly embedded:
* `RecursionEngine` models `src/sovereign_recursion/recursion_engine.py`
  (`LayerResult`, `check_cognitive`, `compute_sovereign_score`);
* `LoopRunner` models `src/sovereign_recursion/loop_runner.py`
  (`ClassificationPolicy`, `_failing_layers_from_report`, `_classify`,
  the per-iteration attempt loop of `main`, and `main`'s exit-code rule);
* `Ledger` models `src/sovereign_recursion/ledger.py`
  (`LedgerEntry`, `UniversalLedger.append`, `UniversalLedger.verify`).

SHA-256 of the canonical JSON serialization (`_sha256_text ∘ _canonical_json`)
is modelled by a parameter `H : EntryContent → String`: every chain-bookkeeping
theorem holds for an arbitrary such function, and collision-freeness is taken
as an explicit hypothesis exactly where a proof needs it.
-/

/-- Python's `str.upper()` (ASCII case map, which is all the embedded code
feeds it).  Defined over the character list so that it evaluates in the
kernel (`String.toUpper` is well-founded recursion and does not). -/
def pyUpper (s : String) : String := ⟨s.data.map Char.toUpper⟩

/-- Python's `str.lower()` (ASCII case map). -/
def pyLower (s : String) : String := ⟨s.data.map Char.toLower⟩

/-- Python's `str.strip()`: drop leading and trailing whitespace. -/
def pyStrip (s : String) : String :=
  ⟨((s.data.dropWhile Char.isWhitespace).reverse.dropWhile Char.isWhitespace).reverse⟩

namespace RecursionEngine

/-- Embeds `LayerResult` from `recursion_engine.py`.  The `details` dict is
modelled as a string-keyed association list of stringified values (the only
detail the embedded checks write is `"rating"`). -/
structure LayerResult where
  status : String
  issues : List String
  details : List (String × String)
deriving DecidableEq, Repr

/-- Embeds `check_cognitive` (recursion_engine.py lines 166-181): `None`
rating gives UNKNOWN; otherwise the `<= 2` / `== 3` / `>= 4` ladder, with a
final `rating out of range` fallback. -/
def check_cognitive (rating : Option Int) : LayerResult :=
  match rating with
  | none => { status := "UNKNOWN", issues := ["no rating provided"], details := [("rating", "None")] }
  | some r =>
    let details := [("rating", toString r)]
    if r ≤ 2 then { status := "OVERLOADED", issues := ["self-rating low"], details := details }
    else if r = 3 then { status := "STRAINED", issues := [], details := details }
    else if r ≥ 4 then { status := "STABLE", issues := [], details := details }
    else { status := "UNKNOWN", issues := ["rating out of range"], details := details }

/-- The sovereign score triple returned by `compute_sovereign_score`. -/
structure SovereignScore where
  total_capability : Int
  dangerous_freedom : Int
  stability : Int
deriving DecidableEq, Repr

/-- Embeds `compute_sovereign_score` (recursion_engine.py lines 229-244):
iterate over the layer-result map accumulating `dangerous_freedom`
(+10 DEGRADED, +5 WARNING, +15 OVERLOADED), then `stability = 100 - df`. -/
def compute_sovereign_score (latest_by_layer : List (String × LayerResult)) : SovereignScore :=
  let total_capability : Int := 100
  let dangerous_freedom : Int := latest_by_layer.foldl
    (fun acc p =>
      if p.2.status = "DEGRADED" then acc + 10
      else if p.2.status = "WARNING" then acc + 5
      else if p.2.status = "OVERLOADED" then acc + 15
      else acc) 0
  { total_capability := total_capability,
    dangerous_freedom := dangerous_freedom,
    stability := total_capability - dangerous_freedom }

/-- The weight a single layer's status contributes to `dangerous_freedom`. -/
def statusWeight (r : LayerResult) : Int :=
  if r.status = "DEGRADED" then 10
  else if r.status = "WARNING" then 5
  else if r.status = "OVERLOADED" then 15
  else 0

/-- Number of layers in the map whose status equals `s`. -/
def countStatus (m : List (String × LayerResult)) (s : String) : Int :=
  ((m.filter (fun p => p.2.status = s)).length : Int)

/-- A layer result with the given status and no issues or details. -/
def plainResult (s : String) : LayerResult := { status := s, issues := [], details := [] }

/-- An all-STABLE five-layer report. -/
def allStableReport : List (String × LayerResult) :=
  [("physical", plainResult "STABLE"), ("digital", plainResult "STABLE"),
   ("codex", plainResult "STABLE"), ("cognitive", plainResult "STABLE"),
   ("collaborative", plainResult "STABLE")]

/-- A report with one DEGRADED and one WARNING layer (others STABLE). -/
def degWarnReport : List (String × LayerResult) :=
  [("physical", plainResult "DEGRADED"), ("digital", plainResult "WARNING"),
   ("codex", plainResult "STABLE")]

/-- A report with seven OVERLOADED layers, driving `dangerous_freedom`
above `total_capability`. -/
def sevenOverloadedReport : List (String × LayerResult) :=
  (List.range 7).map (fun i => (toString i, plainResult "OVERLOADED"))

end RecursionEngine

namespace LoopRunner

/-- A JSON array element as seen by `ClassificationPolicy.from_json`:
either a JSON string or any non-string JSON value. -/
inductive JItem where
  | jstr (s : String)
  | jother
deriving DecidableEq, Repr

/-- Embeds the frozen dataclass `ClassificationPolicy` (loop_runner.py lines
20-27).  Python's `set[str]` fields are modelled as `List String` used only
through membership. -/
structure ClassificationPolicy where
  hard_layers_on_degraded : List String
  hard_statuses : List String
  soft_statuses : List String
  treat_missing_report_as : String
  treat_missing_layers_as : String
deriving DecidableEq, Repr

/-- Embeds `ClassificationPolicy.defaults` (loop_runner.py lines 28-36). -/
def ClassificationPolicy.defaults : ClassificationPolicy :=
  { hard_layers_on_degraded := ["meta", "codex", "digital"],
    hard_statuses := ["CORRUPTED", "OVERLOADED"],
    soft_statuses := ["DEGRADED"],
    treat_missing_report_as := "HARD_FAIL",
    treat_missing_layers_as := "HARD_FAIL" }

/-- The JSON object handed to `from_json`, restricted to the five keys the
function reads.  `none` means the key is absent (Python then substitutes the
default).  The two `treat_*` keys hold `str(value)` of the supplied JSON
value.  A present set-key holds a JSON list; non-list values make the Python
comprehension raise, so `load` falls back to defaults (covered by
`loadPolicy none`). -/
structure PolicyInput where
  hard_layers_on_degraded : Option (List JItem) := none
  hard_statuses : Option (List JItem) := none
  soft_statuses : Option (List JItem) := none
  treat_missing_report_as : Option String := none
  treat_missing_layers_as : Option String := none

/-- The comprehension `set(str(x).strip().lower() for x in l if
isinstance(x, str) and x.strip())` of loop_runner.py line 55 (as a list). -/
def strEntriesLower (l : List JItem) : List String :=
  l.filterMap fun x => match x with
    | .jstr s => if pyStrip s = "" then none else some (pyLower (pyStrip s))
    | .jother => none

/-- The upper-casing comprehension of loop_runner.py lines 56-57. -/
def strEntriesUpper (l : List JItem) : List String :=
  l.filterMap fun x => match x with
    | .jstr s => if pyStrip s = "" then none else some (pyUpper (pyStrip s))
    | .jother => none

/-- Embeds `ClassificationPolicy.from_json` (loop_runner.py lines 38-73):
extract string entries from each set-key (falling back to the built-in
default when the extraction is empty, via Python's `x or default`), and
force each `treat_*` value into {PASS, SOFT_FAIL, HARD_FAIL}. -/
def ClassificationPolicy.from_json (obj : PolicyInput) : ClassificationPolicy :=
  let d := ClassificationPolicy.defaults
  let hard_layers_set := strEntriesLower (obj.hard_layers_on_degraded.getD (d.hard_layers_on_degraded.map JItem.jstr))
  let hard_statuses_set := strEntriesUpper (obj.hard_statuses.getD (d.hard_statuses.map JItem.jstr))
  let soft_statuses_set := strEntriesUpper (obj.soft_statuses.getD (d.soft_statuses.map JItem.jstr))
  let tmr0 := pyUpper (pyStrip (obj.treat_missing_report_as.getD d.treat_missing_report_as))
  let tml0 := pyUpper (pyStrip (obj.treat_missing_layers_as.getD d.treat_missing_layers_as))
  let tmr := if tmr0 ∈ ["PASS", "SOFT_FAIL", "HARD_FAIL"] then tmr0 else d.treat_missing_report_as
  let tml := if tml0 ∈ ["PASS", "SOFT_FAIL", "HARD_FAIL"] then tml0 else d.treat_missing_layers_as
  { hard_layers_on_degraded := if hard_layers_set = [] then d.hard_layers_on_degraded else hard_layers_set,
    hard_statuses := if hard_statuses_set = [] then d.hard_statuses else hard_statuses_set,
    soft_statuses := if soft_statuses_set = [] then d.soft_statuses else soft_statuses_set,
    treat_missing_report_as := tmr,
    treat_missing_layers_as := tml }

/-- Embeds `ClassificationPolicy.load` (loop_runner.py lines 75-88): `none`
covers every failure path (no path given, file missing, unreadable or
unparseable file, JSON that is not an object), all of which return the
defaults; `some obj` is the successful `from_json` path. -/
def loadPolicy : Option PolicyInput → ClassificationPolicy
  | none => ClassificationPolicy.defaults
  | some obj => ClassificationPolicy.from_json obj

/-- The per-layer JSON object inside a run report's `"layers"` dict, as read
by `_classify` and `_failing_layers_from_report`: only `"status"` is used.
`status = none` means the key is absent. -/
structure LayerData where
  status : Option String
deriving DecidableEq, Repr

/-- A parsed run report as read by the classifier.  `layers = none` means
the `"layers"` key is absent or not a dict; an inner `none` means that
layer's value is not a dict (such layers are skipped). -/
structure RunReport where
  layers : Option (List (String × Option LayerData))
deriving DecidableEq, Repr

/-- Embeds `_failing_layers_from_report` (loop_runner.py lines 134-145):
layers whose upper-cased status is DEGRADED, OVERLOADED or CORRUPTED. -/
def failing_layers_from_report (report : RunReport) : List String :=
  match report.layers with
  | none => []
  | some layers => layers.filterMap fun p =>
      match p.2 with
      | none => none
      | some d =>
        let status := pyUpper (d.status.getD "")
        if status ∈ ["DEGRADED", "OVERLOADED", "CORRUPTED"] then some p.1 else none

/-- The inline action expression of loop_runner.py lines 165 and 172. -/
def actionFor (cls : String) : String :=
  if cls = "HARD_FAIL" then "emit_alert"
  else if cls = "SOFT_FAIL" then "retry"
  else "log_only"

/-- One step of the hard/soft reason accumulation loop of `_classify`
(loop_runner.py lines 178-192), on an accumulator (hard_reasons,
soft_reasons). -/
def classifyStep (policy : ClassificationPolicy) (acc : List String × List String)
    (p : String × Option LayerData) : List String × List String :=
  match p.2 with
  | none => acc
  | some d =>
    let status := pyUpper (d.status.getD "UNKNOWN")
    let layer_key := pyLower p.1
    if status ∈ policy.hard_statuses then (acc.1 ++ [p.1 ++ ":" ++ status], acc.2)
    else if status = "DEGRADED" then
      if layer_key ∈ policy.hard_layers_on_degraded then (acc.1 ++ [p.1 ++ ":DEGRADED"], acc.2)
      else (acc.1, acc.2 ++ [p.1 ++ ":DEGRADED"])
    else if status ∈ policy.soft_statuses then (acc.1, acc.2 ++ [p.1 ++ ":" ++ status])
    else acc

/-- Embeds `_classify` (loop_runner.py lines 148-200), returning
(classification, action, reasons).  `report = none` models a missing or
unparseable run report. -/
def classify (report : Option RunReport) (rc : Int) (policy : ClassificationPolicy) :
    String × String × List String :=
  if rc = 0 then ("PASS", "log_only", [])
  else
    match report with
    | none =>
      let cls := policy.treat_missing_report_as
      (cls, actionFor cls, ["missing_or_unparseable_run_report"])
    | some rep =>
      let failing_layers := failing_layers_from_report rep
      match rep.layers with
      | none =>
        let cls := policy.treat_missing_layers_as
        (cls, actionFor cls, ["missing_layers_in_report"])
      | some layers =>
        let hs := layers.foldl (classifyStep policy) ([], [])
        if hs.1 ≠ [] then ("HARD_FAIL", "emit_alert", hs.1)
        else if failing_layers ≠ [] ∨ hs.2 ≠ [] then
          ("SOFT_FAIL", "retry", if hs.2 ≠ [] then hs.2 else failing_layers)
        else ("SOFT_FAIL", "retry", ["nonzero_rc_without_failing_layers"])

/-- What `main`'s attempt loop records per attempt (the fields of
`IterationOutcome` that the exit-code rule and the claims read). -/
structure AttemptOutcome where
  attempt : Nat
  rc : Int
  classification : String
deriving DecidableEq, Repr

/-- Embeds the attempt loop of `main` for one iteration (loop_runner.py
lines 336-465).  `check attempt` is the result `(returncode, parsed
run-report)` of `run_engine_once` on that attempt.  Returns the recorded
outcomes and the sequence of ledger event types the loop appends: one
`"loop_iteration"` per attempt (line 385), plus a `"loop_alert"` on
HARD_FAIL (line 421) or exhausted retries (line 451) when `emitAlerts`.
The loop breaks on `rc = 0`, on HARD_FAIL, or when `attempt > maxRetries`;
otherwise it sleeps and retries. -/
def attemptLoopGo (check : Nat → Int × Option RunReport) (policy : ClassificationPolicy)
    (maxRetries : Nat) (emitAlerts : Bool) (attempt : Nat) :
    List AttemptOutcome × List String :=
  let rc := (check attempt).1
  let report := (check attempt).2
  let cls := (classify report rc policy).1
  let o : AttemptOutcome := { attempt := attempt, rc := rc, classification := cls }
  if rc = 0 then ([o], ["loop_iteration"])
  else if cls = "HARD_FAIL" then
    ([o], "loop_iteration" :: (if emitAlerts then ["loop_alert"] else []))
  else if h : maxRetries < attempt then
    ([o], "loop_iteration" :: (if emitAlerts then ["loop_alert"] else []))
  else
    let rest := attemptLoopGo check policy maxRetries emitAlerts (attempt + 1)
    (o :: rest.1, "loop_iteration" :: rest.2)
termination_by maxRetries + 1 - attempt
decreasing_by omega

/-- One iteration's attempt loop, started (as in the source) at attempt 1. -/
def attemptLoop (check : Nat → Int × Option RunReport) (policy : ClassificationPolicy)
    (maxRetries : Nat) (emitAlerts : Bool) : List AttemptOutcome × List String :=
  attemptLoopGo check policy maxRetries emitAlerts 1

/-- Embeds `main`'s exit-code rule (loop_runner.py lines 480-484):
`if args.gated and any(o.rc != 0 and o.attempt >= 1 for o in outcomes):
return 1; return 0`, where `outcomes` collects every attempt of every
iteration. -/
def mainExitCode (gated : Bool) (outcomes : List AttemptOutcome) : Int :=
  if gated && outcomes.any (fun o => decide (o.rc ≠ 0) && decide (o.attempt ≥ 1)) then 1 else 0

end LoopRunner

namespace Ledger

/-- The hash-covered fields of a `LedgerEntry` (ledger.py lines 65-98): the
entry dict without its `"hash"` key.  `ts_unix` (a Python float timestamp)
is modelled as an `Int`; `data` stands for the canonical JSON serialization
of the entry's payload dict. -/
structure EntryContent where
  ts_utc : String
  ts_unix : Int
  layer : String
  event_type : String
  data : String
  engine_version : String
  previous_hash : String
  layer_previous_hash : String
  proof : Option String
deriving DecidableEq, Repr

/-- A serialized ledger entry: its content plus the stored `"hash"` field.
`compute_hash` (= `_sha256_text ∘ _canonical_json` on the content dict) is
a parameter `H : EntryContent → String` throughout. -/
structure StoredEntry where
  content : EntryContent
  hash : String
deriving DecidableEq, Repr

/-- The physical lines of the JSONL ledger file on which `verify`'s loop
body (and `append`'s rescan) completes without raising: blank (skipped),
undecodable JSON (`json.JSONDecodeError`, caught), a JSON object whose
`"hash"` or `"layer"` is not a string, or a full entry.  A line that decodes
to valid non-object JSON (e.g. `42`) makes the code raise and is modelled
separately by `JsonLine.nonobj`. -/
inductive Line where
  | blank
  | junk
  | malformed
  | entry (e : StoredEntry)
deriving DecidableEq, Repr

/-- The ledger file: `none` when the file does not exist (a fresh ledger
before the first append), otherwise its list of lines. -/
def LedgerFile := Option (List Line)

/-- One step of the tail re-indexing loop inside `append` (ledger.py lines
167-179): lines with a string hash and layer update the last global hash and
the per-layer map; everything else is skipped.  The per-layer dict is a
total function with default `""` (the `prev_layer.get(layer, "")` of line
190). -/
def istep (s : String × (String → String)) (ln : Line) : String × (String → String) :=
  match ln with
  | .entry e => (e.hash, fun l => if l = e.content.layer then e.hash else s.2 l)
  | _ => s

/-- The chain state `(prev_global, prev_layer)` reached after a list of
lines, from a given start state. -/
def chainEnd (s : String × (String → String)) (lines : List Line) : String × (String → String) :=
  lines.foldl istep s

/-- The empty chain state a fresh scan starts from. -/
def chainInit : String × (String → String) := ("", fun _ => "")

/-- The full tail re-indexing of `append` (ledger.py lines 164-179). -/
def indexTail (lines : List Line) : String × (String → String) :=
  chainEnd chainInit lines

/-- The arguments of one `UniversalLedger.append` call (with the timestamps
the call observes). -/
structure AppendReq where
  layer : String
  event_type : String
  data : String
  proof : Option String := none
  ts_utc : String := ""
  ts_unix : Int := 0
deriving Repr

/-- Embeds `UniversalLedger.append` (ledger.py lines 150-201): validate the
arguments (the `ValueError`s of lines 151-156), open the file in `a+` mode
(creating it when absent), re-derive the previous hashes from the file
content, build the entry, compute its hash and append one line.  Returns the
new file and the new entry's hash. -/
def appendE (H : EntryContent → String) (engine_version : String) (file : LedgerFile)
    (r : AppendReq) : Except String (LedgerFile × String) :=
  if r.layer = "" then .error "layer must be a non-empty string"
  else if r.event_type = "" then .error "event_type must be a non-empty string"
  else
    let lines := file.getD []
    let st := indexTail lines
    let c : EntryContent :=
      { ts_utc := r.ts_utc, ts_unix := r.ts_unix, layer := r.layer,
        event_type := r.event_type, data := r.data, engine_version := engine_version,
        previous_hash := st.1, layer_previous_hash := st.2 r.layer, proof := r.proof }
    .ok (some (lines ++ [Line.entry ⟨c, H c⟩]), H c)

/-- A sequence of `append` calls, stopping at the first `ValueError`. -/
def appendAll (H : EntryContent → String) (engine_version : String) :
    LedgerFile → List AppendReq → Except String LedgerFile
  | file, [] => .ok file
  | file, r :: rs =>
    match appendE H engine_version file r with
    | .error e => .error e
    | .ok (f', _) => appendAll H engine_version f' rs

/-- The scanner state of `verify` (ledger.py lines 209-256): 1-based line
index, entry count, overall flag, reason list, and the two chain trackers. -/
structure VState where
  idx : Nat
  total : Nat
  ok : Bool
  reasons : List String
  prev_global : String
  prev_layer : String → String

/-- The state `verify` starts from. -/
def vinit : VState := { idx := 0, total := 0, ok := true, reasons := [], prev_global := "", prev_layer := fun _ => "" }

/-- One iteration of `verify`'s scan loop (ledger.py lines 217-256) on one
line: blanks are skipped; invalid JSON and missing hash/layer record a
reason and move on; a full entry is checked for hash integrity and for both
chains, each failure appending its own reason, and then (mismatch or not)
updates `prev_global` and `prev_layer` from the stored hash. -/
def vstep (H : EntryContent → String) (s : VState) (ln : Line) : VState :=
  let idx := s.idx + 1
  match ln with
  | .blank => { s with idx := idx }
  | .junk =>
    { s with
      idx := idx,
      total := s.total + 1,
      ok := false,
      reasons := s.reasons ++ [s!"line {idx}: invalid json"] }
  | .malformed =>
    { s with
      idx := idx,
      total := s.total + 1,
      ok := false,
      reasons := s.reasons ++ [s!"line {idx}: missing hash/layer"] }
  | .entry e =>
    let r1 : List String := if H e.content ≠ e.hash then [s!"line {idx}: hash mismatch"] else []
    let r2 : List String := if e.content.previous_hash ≠ s.prev_global then [s!"line {idx}: global previous_hash mismatch"] else []
    let r3 : List String := if e.content.layer_previous_hash ≠ s.prev_layer e.content.layer then [s!"line {idx}: layer_previous_hash mismatch"] else []
    { idx := idx, total := s.total + 1,
      ok := s.ok && (r1 ++ r2 ++ r3).isEmpty,
      reasons := s.reasons ++ r1 ++ r2 ++ r3,
      prev_global := e.hash,
      prev_layer := fun l => if l = e.content.layer then e.hash else s.prev_layer l }

/-- `verify`'s scan over the whole file content. -/
def verifyL (H : EntryContent → String) (lines : List Line) : VState :=
  lines.foldl (vstep H) vinit

/-- The fields of the report dict `verify` returns (ledger.py lines
258-264) that the claims are about. -/
structure VerifyReport where
  ok : Bool
  total_entries : Nat
  reasons : List String
deriving DecidableEq, Repr

/-- Embeds `UniversalLedger.verify` (ledger.py lines 203-264) restricted to
files whose every line parses without raising (`Line`):
`self.ledger_path.open("r")` raises `FileNotFoundError` when the ledger
file does not exist; on such files the scan returns a report.  The full
model including valid-JSON non-object lines (which make the code raise
AttributeError) is `verifyJsonE`. -/
def verifyE (H : EntryContent → String) : LedgerFile → Except String VerifyReport
  | none => .error "FileNotFoundError"
  | some lines =>
    let s := verifyL H lines
    .ok { ok := s.ok, total_entries := s.total, reasons := s.reasons }

/-- The stored entries of a file, in order. -/
def entryLines (lines : List Line) : List StoredEntry :=
  lines.filterMap fun ln => match ln with
    | .entry e => some e
    | _ => none

/-- Specification-side description of the per-layer back-pointer: the hash
of the most recent stored entry of the given layer, or `""` if there is
none. -/
def lastLayerHash (lines : List Line) (layer : String) : String :=
  match ((entryLines lines).reverse.find? (fun e => e.content.layer = layer)) with
  | some e => e.hash
  | none => ""

/-- Specification-side description of the global back-pointer: the hash of
the most recent stored entry, or `""` if there is none. -/
def lastGlobalHash (lines : List Line) : String :=
  match (entryLines lines).reverse.head? with
  | some e => e.hash
  | none => ""

/-- The lines form a well-chained ledger continuation from the given chain
state: every line is a stored entry whose back-pointers match the state and
whose stored hash is the recomputed hash of its content.  Files produced by
a sequence of successful `append`s are chained from `chainInit`. -/
inductive ChainedFrom (H : EntryContent → String) : (String × (String → String)) → List Line → Prop
  | nil (st : String × (String → String)) : ChainedFrom H st []
  | cons (st : String × (String → String)) (e : StoredEntry) (rest : List Line)
      (hprev : e.content.previous_hash = st.1)
      (hlayer : e.content.layer_previous_hash = st.2 e.content.layer)
      (hhash : e.hash = H e.content)
      (hrest : ChainedFrom H (istep st (Line.entry e)) rest) :
      ChainedFrom H st (Line.entry e :: rest)

/-- Number of non-blank lines (what `verify` counts in `total_entries`). -/
def countNonBlank (lines : List Line) : Nat :=
  (lines.filter (fun ln => ln ≠ Line.blank)).length

end Ledger

namespace RecursionEngine

/-- `degWarnReport` with its layers listed in the opposite order (a
permutation of the same layer-result map). -/
def degWarnReportRev : List (String × LayerResult) :=
  [("codex", plainResult "STABLE"), ("digital", plainResult "WARNING"),
   ("physical", plainResult "DEGRADED")]

end RecursionEngine

namespace LoopRunner

/-- A run report with one soft-failing layer (`physical` DEGRADED, which is
not in the default hard-on-degraded set). -/
def degRunReport : RunReport :=
  { layers := some [("physical", some { status := some "DEGRADED" })] }

/-- A checker that fails softly on attempt 1 and succeeds from attempt 2 on
(the retry-then-pass scenario). -/
def checkFailOnce : Nat → Int × Option RunReport
  | 1 => (1, some degRunReport)
  | _ => (0, none)

/-- A checker that fails softly on attempts 1 and 2 and succeeds on
attempt 3. -/
def checkFailTwice : Nat → Int × Option RunReport
  | 1 => (1, some degRunReport)
  | 2 => (1, some degRunReport)
  | _ => (0, none)

/-- The invariant every policy produced by `from_json` (and `load`) is
claimed to satisfy: both fallbacks are valid classifications and the three
sets are non-empty. -/
def PolicyInvariant (p : ClassificationPolicy) : Prop :=
  p.treat_missing_report_as ∈ ["PASS", "SOFT_FAIL", "HARD_FAIL"] ∧
  p.treat_missing_layers_as ∈ ["PASS", "SOFT_FAIL", "HARD_FAIL"] ∧
  p.hard_layers_on_degraded ≠ [] ∧
  p.hard_statuses ≠ [] ∧
  p.soft_statuses ≠ []

/-- A policy JSON object whose set-keys carry no valid string entry (a
non-string element, a blank string, an empty list) and whose report
fallback is not a valid classification. -/
def degeneratePolicyInput : PolicyInput :=
  { hard_layers_on_degraded := some [JItem.jother],
    hard_statuses := some [JItem.jstr "   "],
    soft_statuses := some [],
    treat_missing_report_as := some "bogus",
    treat_missing_layers_as := none }

end LoopRunner

namespace Ledger

/-- A concrete stand-in for the SHA-256 content hash, used by the closed
witnesses: it tags the fields it covers, so distinct demo contents get
distinct hashes (checked by `decide` where needed, never assumed). -/
def demoHash (c : EntryContent) : String :=
  "h(" ++ c.layer ++ "|" ++ c.event_type ++ "|" ++ c.data ++ "|" ++ c.previous_hash ++ "|" ++ c.layer_previous_hash ++ ")"

/-- First demo append request: layer `"A"`. -/
def reqA1 : AppendReq := { layer := "A", event_type := "t", data := "a" }

/-- Second demo append request: layer `"B"`. -/
def reqB : AppendReq := { layer := "B", event_type := "t", data := "b" }

/-- Third demo append request: layer `"A"` again. -/
def reqA2 : AppendReq := { layer := "A", event_type := "t", data := "c" }

/-- The content the first demo append writes (fresh file, layer `"A"`). -/
def demoC1 : EntryContent :=
  { ts_utc := "", ts_unix := 0, layer := "A", event_type := "t", data := "a",
    engine_version := "recursion-v1", previous_hash := "", layer_previous_hash := "",
    proof := none }

/-- The first demo stored entry. -/
def demoE1 : StoredEntry := ⟨demoC1, demoHash demoC1⟩

/-- The content the second demo append writes (layer `"B"`, global chain
points at the first entry, no earlier `"B"` entry). -/
def demoC2 : EntryContent :=
  { ts_utc := "", ts_unix := 0, layer := "B", event_type := "t", data := "b",
    engine_version := "recursion-v1", previous_hash := demoE1.hash,
    layer_previous_hash := "", proof := none }

/-- The second demo stored entry. -/
def demoE2 : StoredEntry := ⟨demoC2, demoHash demoC2⟩

/-- The demo ledger file after appending to layer `"A"` then `"B"`. -/
def demoFileAB : List Line := [Line.entry demoE1, Line.entry demoE2]

/-- `demoFileAB` with one byte of the first entry's payload changed (its
`data` field), the stored `hash` field left untouched. -/
def demoFileMut : List Line :=
  [Line.entry ⟨{ demoC1 with data := "x" }, demoE1.hash⟩, Line.entry demoE2]

/-- A physical line of the ledger file in full: either one of the `Line`
cases (on which the scan loop's body completes), or a line that decodes to
valid non-object JSON — `42`, `[1]`, `"x"`, `null`, ... — which passes the
`json.JSONDecodeError` catch and then makes `obj.get("hash")` raise an
uncaught AttributeError (ledger.py line 230 in `verify`, line 175 in
`append`'s rescan). -/
inductive JsonLine where
  | std (ln : Line)
  | nonobj
deriving DecidableEq, Repr

/-- `verify`'s scan loop over the full line model (ledger.py lines
217-256): a `Line` steps exactly as `vstep`; a valid-JSON non-object line
aborts the whole call with AttributeError (nothing scanned so far is
reported). -/
def verifyScan (H : EntryContent → String) (s : VState) : List JsonLine → Except String VState
  | [] => .ok s
  | JsonLine.nonobj :: _ => .error "AttributeError"
  | JsonLine.std ln :: rest => verifyScan H (vstep H s ln) rest

/-- Embeds `UniversalLedger.verify` over the full line model: a missing
file raises FileNotFoundError, a valid-JSON non-object line raises
AttributeError, and otherwise the structured report is returned.
`verifyE` is this function restricted to `JsonLine.std` lines. -/
def verifyJsonE (H : EntryContent → String) : Option (List JsonLine) → Except String VerifyReport
  | none => .error "FileNotFoundError"
  | some lines =>
    match verifyScan H vinit lines with
    | .error msg => .error msg
    | .ok s => .ok { ok := s.ok, total_entries := s.total, reasons := s.reasons }

end Ledger

namespace RecursionEngine

/-- C5: `check_cognitive` maps a supplied in-range rating to the claimed
tier and an absent rating to UNKNOWN, and never raises; but for ratings
outside 1-5 the `<= 2` / `== 3` / `>= 4` ladder already covers every
integer, so the `rating out of range` UNKNOWN branch is unreachable:
rating 0 yields OVERLOADED and rating 6 yields STABLE, contradicting the
claimed UNKNOWN-with-issue-note behaviour. -/
theorem check_cognitive_out_of_range_bug :
    check_cognitive none = { status := "UNKNOWN", issues := ["no rating provided"], details := [("rating", "None")] } ∧
    (check_cognitive (some 1)).status = "OVERLOADED" ∧
    (check_cognitive (some 2)).status = "OVERLOADED" ∧
    (check_cognitive (some 3)).status = "STRAINED" ∧
    (check_cognitive (some 4)).status = "STABLE" ∧
    (check_cognitive (some 5)).status = "STABLE" ∧
    check_cognitive (some 0) = { status := "OVERLOADED", issues := ["self-rating low"], details := [("rating", "0")] } ∧
    check_cognitive (some 6) = { status := "STABLE", issues := [], details := [("rating", "6")] } ∧
    (check_cognitive (some 0)).status ≠ "UNKNOWN" ∧
    (check_cognitive (some 6)).status ≠ "UNKNOWN" := by
  decide

/-- The accumulating fold of `compute_sovereign_score` equals its start
value plus the sum of the per-layer status weights. -/
theorem foldl_weight (m : List (String × LayerResult)) (a : Int) :
    m.foldl
      (fun acc p =>
        if p.2.status = "DEGRADED" then acc + 10
        else if p.2.status = "WARNING" then acc + 5
        else if p.2.status = "OVERLOADED" then acc + 15
        else acc) a
      = a + (m.map (fun p => statusWeight p.2)).sum := by
  induction m generalizing a with
  | nil => simp
  | cons x xs ih =>
    simp only [List.foldl_cons, List.map_cons, List.sum_cons, ih, statusWeight]
    split_ifs <;> ring

/-- `compute_sovereign_score` in closed form. -/
theorem score_eq (m : List (String × LayerResult)) :
    compute_sovereign_score m =
      { total_capability := 100,
        dangerous_freedom := (m.map (fun p => statusWeight p.2)).sum,
        stability := 100 - (m.map (fun p => statusWeight p.2)).sum } := by
  simp [compute_sovereign_score, foldl_weight]

/-- The status-weight sum counts DEGRADED, WARNING and OVERLOADED layers
with weights 10, 5 and 15; no other status contributes. -/
theorem weight_sum_counts (m : List (String × LayerResult)) :
    (m.map (fun p => statusWeight p.2)).sum =
      10 * countStatus m "DEGRADED" + 5 * countStatus m "WARNING" + 15 * countStatus m "OVERLOADED" := by
  induction m with
  | nil => simp [countStatus]
  | cons x xs ih =>
    rw [List.map_cons, List.sum_cons, ih]
    by_cases h1 : x.2.status = "DEGRADED"
    · have h2 : x.2.status ≠ "WARNING" := by rw [h1]; decide
      have h3 : x.2.status ≠ "OVERLOADED" := by rw [h1]; decide
      simp [statusWeight, countStatus, List.filter_cons, h1, h2, h3]
      ring
    · by_cases h2 : x.2.status = "WARNING"
      · have h3 : x.2.status ≠ "OVERLOADED" := by rw [h2]; decide
        simp [statusWeight, countStatus, List.filter_cons, h1, h2, h3]
        ring
      · by_cases h3 : x.2.status = "OVERLOADED"
        · simp [statusWeight, countStatus, List.filter_cons, h1, h2, h3]
          ring
        · simp [statusWeight, countStatus, List.filter_cons, h1, h2, h3]

/-- C4: `compute_sovereign_score` is a pure, order-independent function of
the layer-result map: permuting the map leaves the score unchanged;
`total_capability` is always 100; `dangerous_freedom` is 10 per DEGRADED
plus 5 per WARNING plus 15 per OVERLOADED layer (no other status
contributes); `stability = total_capability - dangerous_freedom`, never
clamped and possibly negative; an all-STABLE report yields {100, 0, 100}
and one DEGRADED plus one WARNING layer yields dangerous_freedom 15,
stability 85. -/
theorem compute_sovereign_score_correct (m m' : List (String × LayerResult)) (hperm : m.Perm m') :
    compute_sovereign_score m = compute_sovereign_score m' ∧
    (compute_sovereign_score m).total_capability = 100 ∧
    (compute_sovereign_score m).dangerous_freedom =
      10 * countStatus m "DEGRADED" + 5 * countStatus m "WARNING" + 15 * countStatus m "OVERLOADED" ∧
    (compute_sovereign_score m).stability =
      (compute_sovereign_score m).total_capability - (compute_sovereign_score m).dangerous_freedom ∧
    compute_sovereign_score allStableReport = { total_capability := 100, dangerous_freedom := 0, stability := 100 } ∧
    (compute_sovereign_score degWarnReport).dangerous_freedom = 15 ∧
    (compute_sovereign_score degWarnReport).stability = 85 ∧
    (compute_sovereign_score sevenOverloadedReport).stability = -5 := by
  refine ⟨?_, ?_, ?_, ?_, ?_, ?_, ?_, ?_⟩
  · rw [score_eq m, score_eq m', (hperm.map (fun p => statusWeight p.2)).sum_eq]
  · rw [score_eq]
  · rw [score_eq]
    exact weight_sum_counts m
  · rw [score_eq]
  · decide
  · decide
  · decide
  · decide

/-- Witness for C4 at a concrete permutation pair: the one-DEGRADED plus
one-WARNING report and its reversal get the same score {100, 15, 85}. -/
theorem compute_sovereign_score_correct_witness :
    compute_sovereign_score degWarnReport = compute_sovereign_score degWarnReportRev ∧
    compute_sovereign_score degWarnReport = { total_capability := 100, dangerous_freedom := 15, stability := 85 } := by
  have h := compute_sovereign_score_correct degWarnReport degWarnReportRev (by decide)
  exact ⟨h.1, by decide⟩

end RecursionEngine

namespace LoopRunner

/-- Counterexample to C2: with a missing (None) report but a zero return
code, `_classify` returns PASS before ever consulting the policy's
missing-report fallback — the classification is not the configured
fallback (default HARD_FAIL), contradicting "regardless of the checked
process's return code". -/
theorem classify_missing_report_rc_zero_pass :
    classify none 0 ClassificationPolicy.defaults = ("PASS", "log_only", []) ∧
    ClassificationPolicy.defaults.treat_missing_report_as = "HARD_FAIL" ∧
    (classify none 0 ClassificationPolicy.defaults).1 ≠ ClassificationPolicy.defaults.treat_missing_report_as := by
  decide

/-- C2 (amended): when the checked process's return code is nonzero and the
run report is missing or unparseable, the classification is exactly the
policy's configured missing-report fallback (default HARD_FAIL) with the
matching action and reason; it can be PASS only if the fallback itself is
configured as PASS.  (With return code 0 the classification is PASS
regardless of the report.) -/
theorem classify_missing_report_policy_fallback (rc : Int) (policy : ClassificationPolicy)
    (h : rc ≠ 0) :
    classify none rc policy =
      (policy.treat_missing_report_as, actionFor policy.treat_missing_report_as,
        ["missing_or_unparseable_run_report"]) ∧
    ((classify none rc policy).1 = "PASS" → policy.treat_missing_report_as = "PASS") := by
  constructor
  · simp [classify, h]
  · intro hp
    rw [(by simp [classify, h] :
      classify none rc policy =
        (policy.treat_missing_report_as, actionFor policy.treat_missing_report_as,
          ["missing_or_unparseable_run_report"]))] at hp
    exact hp

/-- Witness for C2 (amended) at rc = 1 with the default policy: the
classification is the default fallback HARD_FAIL. -/
theorem classify_missing_report_policy_fallback_witness :
    classify none 1 ClassificationPolicy.defaults =
      ("HARD_FAIL", "emit_alert", ["missing_or_unparseable_run_report"]) := by
  have h := classify_missing_report_policy_fallback 1 ClassificationPolicy.defaults (by decide)
  exact h.1.trans (by decide)

/-- C3: the gated exit-code rule of `main` is `any attempt had rc ≠ 0`, not
`some iteration's final attempt did not reach PASS`: with max-retries 1 and
a checker that fails softly on attempt 1 and passes on attempt 2, the single
iteration's final attempt is PASS, yet `main` returns 1. -/
theorem gated_exit_nonzero_despite_final_pass :
    (attemptLoop checkFailOnce ClassificationPolicy.defaults 1 false).1 =
      [{ attempt := 1, rc := 1, classification := "SOFT_FAIL" },
       { attempt := 2, rc := 0, classification := "PASS" }] ∧
    ((attemptLoop checkFailOnce ClassificationPolicy.defaults 1 false).1.getLast?.map
        (fun o => o.classification)) = some "PASS" ∧
    mainExitCode true (attemptLoop checkFailOnce ClassificationPolicy.defaults 1 false).1 = 1 := by
  rw [attemptLoop, attemptLoopGo, attemptLoopGo]
  decide

/-- Every event list the attempt loop produces contains one
`"loop_iteration"` entry per recorded attempt. -/
theorem attemptLoopGo_count (check : Nat → Int × Option RunReport) (policy : ClassificationPolicy)
    (maxRetries : Nat) (emitAlerts : Bool) (attempt : Nat) :
    (attemptLoopGo check policy maxRetries emitAlerts attempt).2.count "loop_iteration" =
      (attemptLoopGo check policy maxRetries emitAlerts attempt).1.length := by
  induction attempt using attemptLoopGo.induct check policy maxRetries emitAlerts with
  | case1 x rc hrc =>
    have h1 : (check x).1 = 0 := hrc
    rw [attemptLoopGo]
    simp [h1]
  | case2 x rc report cls hrc hcls =>
    have h1 : ¬(check x).1 = 0 := hrc
    have h2 : (classify (check x).2 (check x).1 policy).1 = "HARD_FAIL" := hcls
    rw [attemptLoopGo]
    cases emitAlerts <;> simp [h1, h2, List.count_cons]
  | case3 x rc report cls hrc hcls hlt =>
    have h1 : ¬(check x).1 = 0 := hrc
    have h2 : ¬(classify (check x).2 (check x).1 policy).1 = "HARD_FAIL" := hcls
    rw [attemptLoopGo]
    cases emitAlerts <;> simp [h1, h2, hlt, List.count_cons]
  | case4 x rc report cls hrc hcls hlt ih =>
    have h1 : ¬(check x).1 = 0 := hrc
    have h2 : ¬(classify (check x).2 (check x).1 policy).1 = "HARD_FAIL" := hcls
    rw [attemptLoopGo]
    simp [h1, h2, hlt, List.count_cons, ih]

/-- The attempt loop from a given starting attempt records at most
`max 1 (maxRetries + 2 - attempt)` attempts. -/
theorem attemptLoopGo_length (check : Nat → Int × Option RunReport) (policy : ClassificationPolicy)
    (maxRetries : Nat) (emitAlerts : Bool) (attempt : Nat) :
    (attemptLoopGo check policy maxRetries emitAlerts attempt).1.length ≤
      max 1 (maxRetries + 2 - attempt) := by
  induction attempt using attemptLoopGo.induct check policy maxRetries emitAlerts with
  | case1 x rc hrc =>
    have h1 : (check x).1 = 0 := hrc
    rw [attemptLoopGo]
    simp [h1]
  | case2 x rc report cls hrc hcls =>
    have h1 : ¬(check x).1 = 0 := hrc
    have h2 : (classify (check x).2 (check x).1 policy).1 = "HARD_FAIL" := hcls
    rw [attemptLoopGo]
    simp [h1, h2]
  | case3 x rc report cls hrc hcls hlt =>
    have h1 : ¬(check x).1 = 0 := hrc
    have h2 : ¬(classify (check x).2 (check x).1 policy).1 = "HARD_FAIL" := hcls
    rw [attemptLoopGo]
    simp [h1, h2, hlt]
  | case4 x rc report cls hrc hcls hlt ih =>
    have h1 : ¬(check x).1 = 0 := hrc
    have h2 : ¬(classify (check x).2 (check x).1 policy).1 = "HARD_FAIL" := hcls
    rw [attemptLoopGo]
    simp [h1, h2, hlt]
    have hx : x ≤ maxRetries := Nat.le_of_not_lt hlt
    have hb : max 1 (maxRetries + 2 - (x + 1)) = maxRetries + 1 - x := by omega
    rw [hb] at ih
    omega

/-- C8: within one iteration, the attempt loop is bounded: it always
terminates after at most max-retries + 1 attempts, and the ledger event
trace carries exactly one "loop_iteration" event per attempt; with
max-retries = 2 and a checker failing (SOFT_FAIL) on attempts 1 and 2 and
succeeding on attempt 3, the iteration ends PASS on attempt 3 having
produced exactly 3 loop_iteration events. -/
theorem attempt_loop_bounded_retries (check : Nat → Int × Option RunReport)
    (policy : ClassificationPolicy) (maxRetries : Nat) (emitAlerts : Bool) :
    (attemptLoop check policy maxRetries emitAlerts).1.length ≤ maxRetries + 1 ∧
    (attemptLoop check policy maxRetries emitAlerts).2.count "loop_iteration" =
      (attemptLoop check policy maxRetries emitAlerts).1.length ∧
    attemptLoop checkFailTwice ClassificationPolicy.defaults 2 false =
      ([{ attempt := 1, rc := 1, classification := "SOFT_FAIL" },
        { attempt := 2, rc := 1, classification := "SOFT_FAIL" },
        { attempt := 3, rc := 0, classification := "PASS" }],
       ["loop_iteration", "loop_iteration", "loop_iteration"]) := by
  refine ⟨?_, attemptLoopGo_count check policy maxRetries emitAlerts 1, ?_⟩
  · have h := attemptLoopGo_length check policy maxRetries emitAlerts 1
    have : max 1 (maxRetries + 2 - 1) = maxRetries + 1 := by omega
    rwa [this] at h
  · rw [attemptLoop, attemptLoopGo, attemptLoopGo, attemptLoopGo]
    decide

end LoopRunner

namespace LoopRunner

/-- Every policy `from_json` builds satisfies the claimed invariant. -/
theorem policy_invariant_from_json (obj : PolicyInput) :
    PolicyInvariant (ClassificationPolicy.from_json obj) := by
  have hmem : ∀ s : String,
      (if s ∈ ["PASS", "SOFT_FAIL", "HARD_FAIL"] then s else "HARD_FAIL") ∈
        ["PASS", "SOFT_FAIL", "HARD_FAIL"] := by
    intro s
    split_ifs with h
    · exact h
    · decide
  have hne : ∀ (s d : List String), d ≠ [] → (if s = [] then d else s) ≠ [] := by
    intro s d hd
    split_ifs with h
    · exact hd
    · exact h
  refine ⟨hmem _, hmem _, hne _ _ (by decide), hne _ _ (by decide), hne _ _ (by decide)⟩

/-- C10: every policy produced by `ClassificationPolicy.from_json` (and by
`load`, which falls back to the defaults on every failure path) has valid
missing-report and missing-layers fallbacks and non-empty hard-layer,
hard-status and soft-status sets; a key supplied as an empty list, or a
list with no valid string entries, silently reverts that key to its
built-in default. -/
theorem from_json_policy_invariant (obj : PolicyInput) (x : Option PolicyInput) :
    PolicyInvariant (ClassificationPolicy.from_json obj) ∧
    PolicyInvariant (loadPolicy x) ∧
    (∀ l, obj.hard_layers_on_degraded = some l → strEntriesLower l = [] →
      (ClassificationPolicy.from_json obj).hard_layers_on_degraded =
        ClassificationPolicy.defaults.hard_layers_on_degraded) ∧
    (∀ l, obj.hard_statuses = some l → strEntriesUpper l = [] →
      (ClassificationPolicy.from_json obj).hard_statuses =
        ClassificationPolicy.defaults.hard_statuses) ∧
    (∀ l, obj.soft_statuses = some l → strEntriesUpper l = [] →
      (ClassificationPolicy.from_json obj).soft_statuses =
        ClassificationPolicy.defaults.soft_statuses) := by
  refine ⟨policy_invariant_from_json obj, ?_, ?_, ?_, ?_⟩
  · cases x with
    | none =>
      refine ⟨by decide, by decide, by decide, by decide, by decide⟩
    | some o => exact policy_invariant_from_json o
  · intro l hl hempty
    simp [ClassificationPolicy.from_json, hl, hempty]
  · intro l hl hempty
    simp [ClassificationPolicy.from_json, hl, hempty]
  · intro l hl hempty
    simp [ClassificationPolicy.from_json, hl, hempty]

/-- Witness for C10 at a concrete degenerate input: a policy JSON whose
set-keys have no valid string entries and whose report fallback is an
invalid word still yields a policy satisfying the invariant, with all
three sets reverted to the defaults. -/
theorem from_json_policy_invariant_witness :
    PolicyInvariant (ClassificationPolicy.from_json degeneratePolicyInput) ∧
    (ClassificationPolicy.from_json degeneratePolicyInput).hard_layers_on_degraded =
      ClassificationPolicy.defaults.hard_layers_on_degraded ∧
    (ClassificationPolicy.from_json degeneratePolicyInput).hard_statuses =
      ClassificationPolicy.defaults.hard_statuses ∧
    (ClassificationPolicy.from_json degeneratePolicyInput).soft_statuses =
      ClassificationPolicy.defaults.soft_statuses := by
  obtain ⟨hinv, _, hrev1, hrev2, hrev3⟩ := from_json_policy_invariant degeneratePolicyInput none
  exact ⟨hinv, hrev1 [JItem.jother] rfl (by decide), hrev2 [JItem.jstr "   "] rfl (by decide),
    hrev3 [] rfl (by decide)⟩

end LoopRunner

namespace Ledger

/-- `verify`'s scan never aborts: its `total_entries` counter always counts
every non-blank line, whatever errors the lines contain. -/
theorem foldl_vstep_total (H : EntryContent → String) :
    ∀ (g : List Line) (s : VState), (g.foldl (vstep H) s).total = s.total + countNonBlank g := by
  intro g
  induction g with
  | nil => intro s; simp [countNonBlank]
  | cons ln rest ih =>
    intro s
    rw [List.foldl_cons, ih]
    cases ln <;> simp [vstep, countNonBlank, List.filter_cons] <;> omega

/-- Scanning a well-chained continuation adds no reasons and flips no flag:
the fold just advances the counters and the chain state. -/
theorem chained_foldl (H : EntryContent → String) :
    ∀ (lines : List Line) (s : VState),
      ChainedFrom H (s.prev_global, s.prev_layer) lines →
      lines.foldl (vstep H) s =
        { idx := s.idx + lines.length, total := s.total + lines.length,
          ok := s.ok, reasons := s.reasons,
          prev_global := (chainEnd (s.prev_global, s.prev_layer) lines).1,
          prev_layer := (chainEnd (s.prev_global, s.prev_layer) lines).2 } := by
  intro lines
  induction lines with
  | nil =>
    intro s h
    simp [chainEnd]
  | cons ln rest ih =>
    intro s h
    cases h with
    | cons _ e _ hprev hlayer hhash hrest =>
      have hne1 : ¬(H e.content ≠ e.hash) := by rw [hhash]; exact not_not_intro rfl
      have hne2 : ¬(e.content.previous_hash ≠ s.prev_global) := not_not_intro hprev
      have hne3 : ¬(e.content.layer_previous_hash ≠ s.prev_layer e.content.layer) :=
        not_not_intro hlayer
      have hv : vstep H s (Line.entry e) =
          { idx := s.idx + 1, total := s.total + 1, ok := s.ok, reasons := s.reasons,
            prev_global := e.hash,
            prev_layer := fun l => if l = e.content.layer then e.hash else s.prev_layer l } := by
        simp [vstep, if_neg hne1, if_neg hne2, if_neg hne3]
      rw [List.foldl_cons, hv, ih _ hrest]
      simp only [VState.mk.injEq, List.length_cons, chainEnd, List.foldl_cons, istep,
        and_true, true_and]
      omega

/-- A chained list splits into a chained prefix and a continuation chained
from the prefix's end state. -/
theorem chained_split (H : EntryContent → String) :
    ∀ (xs ys : List Line) (st : String × (String → String)),
      ChainedFrom H st (xs ++ ys) →
      ChainedFrom H st xs ∧ ChainedFrom H (chainEnd st xs) ys := by
  intro xs
  induction xs with
  | nil => intro ys st h; exact ⟨ChainedFrom.nil st, h⟩
  | cons ln rest ih =>
    intro ys st h
    cases h with
    | cons _ e _ hprev hlayer hhash hrest =>
      obtain ⟨h1, h2⟩ := ih ys _ hrest
      exact ⟨ChainedFrom.cons st e rest hprev hlayer hhash h1, h2⟩

/-- Appending one entry whose back-pointers match the end state and whose
stored hash is recomputed keeps the file chained. -/
theorem chained_append (H : EntryContent → String) :
    ∀ (xs : List Line) (st : String × (String → String)) (e : StoredEntry),
      ChainedFrom H st xs →
      e.content.previous_hash = (chainEnd st xs).1 →
      e.content.layer_previous_hash = (chainEnd st xs).2 e.content.layer →
      e.hash = H e.content →
      ChainedFrom H st (xs ++ [Line.entry e]) := by
  intro xs
  induction xs with
  | nil =>
    intro st e h hp hl hh
    exact ChainedFrom.cons st e [] hp hl hh (ChainedFrom.nil _)
  | cons ln rest ih =>
    intro st e h hp hl hh
    cases h with
    | cons _ e' _ hprev hlayer hhash hrest =>
      exact ChainedFrom.cons st e' (rest ++ [Line.entry e]) hprev hlayer hhash
        (ih _ e hrest hp hl hh)

end Ledger

namespace Ledger

/-- A sequence of valid `append`s on an existing chained file succeeds and
yields a chained file, one line longer per request. -/
theorem appendAll_chained (H : EntryContent → String) (ev : String) :
    ∀ (reqs : List AppendReq) (lines : List Line),
      (∀ r ∈ reqs, r.layer ≠ "" ∧ r.event_type ≠ "") →
      ChainedFrom H chainInit lines →
      ∃ lines', appendAll H ev (some lines) reqs = .ok (some lines') ∧
        ChainedFrom H chainInit lines' ∧ lines'.length = lines.length + reqs.length := by
  intro reqs
  induction reqs with
  | nil =>
    intro lines hv hch
    exact ⟨lines, rfl, hch, by simp⟩
  | cons r rs ih =>
    intro lines hv hch
    have hr := hv r (List.mem_cons_self r rs)
    have happ : appendE H ev (some lines) r =
        .ok (some (lines ++
          [Line.entry
            ⟨{ ts_utc := r.ts_utc, ts_unix := r.ts_unix, layer := r.layer,
               event_type := r.event_type, data := r.data, engine_version := ev,
               previous_hash := (indexTail lines).1,
               layer_previous_hash := (indexTail lines).2 r.layer, proof := r.proof },
             H { ts_utc := r.ts_utc, ts_unix := r.ts_unix, layer := r.layer,
                 event_type := r.event_type, data := r.data, engine_version := ev,
                 previous_hash := (indexTail lines).1,
                 layer_previous_hash := (indexTail lines).2 r.layer, proof := r.proof }⟩]),
          H { ts_utc := r.ts_utc, ts_unix := r.ts_unix, layer := r.layer,
              event_type := r.event_type, data := r.data, engine_version := ev,
              previous_hash := (indexTail lines).1,
              layer_previous_hash := (indexTail lines).2 r.layer, proof := r.proof }) := by
      simp [appendE, hr.1, hr.2]
    have hch2 : ChainedFrom H chainInit (lines ++
        [Line.entry
          ⟨{ ts_utc := r.ts_utc, ts_unix := r.ts_unix, layer := r.layer,
             event_type := r.event_type, data := r.data, engine_version := ev,
             previous_hash := (indexTail lines).1,
             layer_previous_hash := (indexTail lines).2 r.layer, proof := r.proof },
           H { ts_utc := r.ts_utc, ts_unix := r.ts_unix, layer := r.layer,
               event_type := r.event_type, data := r.data, engine_version := ev,
               previous_hash := (indexTail lines).1,
               layer_previous_hash := (indexTail lines).2 r.layer, proof := r.proof }⟩]) :=
      chained_append H lines chainInit _ hch rfl rfl rfl
    obtain ⟨lines', heq, hch', hlen⟩ :=
      ih _ (fun x hx => hv x (List.mem_cons_of_mem r hx)) hch2
    refine ⟨lines', ?_, hch', ?_⟩
    · rw [appendAll, happ]
      exact heq
    · rw [hlen]
      simp
      omega

end Ledger

namespace Ledger

/-- Counterexample to C1 as stated: with a fresh NONEXISTENT ledger file and
N = 0 appends, `verify()` does not return an ok report — `open("r")` raises
FileNotFoundError (the model's error value), so the claim fails at N = 0
on the nonexistent branch. -/
theorem verify_fresh_nonexistent_error :
    appendAll demoHash "recursion-v1" none [] = .ok none ∧
    verifyE demoHash none = .error "FileNotFoundError" :=
  ⟨rfl, rfl⟩

/-- C1 (amended): for any hash function and any sequence of N valid append
requests, starting from an existing empty ledger file every N ≥ 0 gives a
verify report with ok = true, total_entries = N and no reasons; starting
from a nonexistent file the same holds for every N ≥ 1 (the first append
creates the file; with N = 0 the file still does not exist and `verify()`
raises instead of reporting). -/
theorem verify_after_appends (H : EntryContent → String) (ev : String)
    (reqs : List AppendReq)
    (hvalid : ∀ r ∈ reqs, r.layer ≠ "" ∧ r.event_type ≠ "") :
    (∃ f, appendAll H ev (some []) reqs = .ok f ∧
      verifyE H f = .ok { ok := true, total_entries := reqs.length, reasons := [] }) ∧
    (reqs ≠ [] → ∃ f, appendAll H ev none reqs = .ok f ∧
      verifyE H f = .ok { ok := true, total_entries := reqs.length, reasons := [] }) := by
  obtain ⟨lines', happ, hch, hlen⟩ :=
    appendAll_chained H ev reqs [] hvalid (ChainedFrom.nil chainInit)
  have hlen' : lines'.length = reqs.length := by simpa using hlen
  have hver : verifyE H (some lines') =
      .ok { ok := true, total_entries := reqs.length, reasons := [] } := by
    have hfold := chained_foldl H lines' vinit hch
    simp only [verifyE, verifyL, hfold]
    simp [vinit, hlen']
  constructor
  · exact ⟨some lines', happ, hver⟩
  · intro hne
    cases reqs with
    | nil => exact absurd rfl hne
    | cons r rs =>
      refine ⟨some lines', ?_, hver⟩
      have hstep : appendE H ev none r = appendE H ev (some []) r := rfl
      rw [appendAll, hstep]
      rw [appendAll] at happ
      exact happ

/-- Witness for C1 (amended) at two concrete appends (layers A then B):
both the empty-file start and the nonexistent start verify with ok = true
and total_entries = 2. -/
theorem verify_after_appends_witness :
    (∃ f, appendAll demoHash "recursion-v1" (some []) [reqA1, reqB] = .ok f ∧
      verifyE demoHash f = .ok { ok := true, total_entries := 2, reasons := [] }) ∧
    (∃ f, appendAll demoHash "recursion-v1" none [reqA1, reqB] = .ok f ∧
      verifyE demoHash f = .ok { ok := true, total_entries := 2, reasons := [] }) := by
  have h := verify_after_appends demoHash "recursion-v1" [reqA1, reqB] (by decide)
  exact ⟨h.1, h.2 (List.cons_ne_nil _ _)⟩

end Ledger

namespace Ledger

/-- The per-layer tail index computed by `append`'s scan equals the hash of
the most recent stored entry of that layer (falling back to the start
state). -/
theorem chainEnd_layer :
    ∀ (lines : List Line) (st : String × (String → String)) (l : String),
      (chainEnd st lines).2 l =
        match (entryLines lines).reverse.find? (fun e => e.content.layer = l) with
        | some e => e.hash
        | none => st.2 l := by
  intro lines
  induction lines with
  | nil => intro st l; rfl
  | cons ln rest ih =>
    intro st l
    cases ln with
    | blank =>
      rw [show chainEnd st (Line.blank :: rest) = chainEnd st rest from rfl, ih]
      rfl
    | junk =>
      rw [show chainEnd st (Line.junk :: rest) = chainEnd st rest from rfl, ih]
      rfl
    | malformed =>
      rw [show chainEnd st (Line.malformed :: rest) = chainEnd st rest from rfl, ih]
      rfl
    | entry e =>
      rw [show chainEnd st (Line.entry e :: rest) = chainEnd (istep st (Line.entry e)) rest from rfl,
        ih]
      have hrev : (entryLines (Line.entry e :: rest)).reverse = (entryLines rest).reverse ++ [e] := by
        show (e :: entryLines rest).reverse = _
        simp
      rw [hrev, List.find?_append]
      cases hf : (entryLines rest).reverse.find? (fun e' => e'.content.layer = l) with
      | some e' => simp [hf]
      | none =>
        by_cases hl : e.content.layer = l
        · simp [hf, hl, istep]
        · have hl' : ¬(l = e.content.layer) := fun hh => hl hh.symm
          simp [hf, hl, hl', istep]

/-- The global tail index computed by `append`'s scan equals the hash of the
most recent stored entry (falling back to the start state). -/
theorem chainEnd_global :
    ∀ (lines : List Line) (st : String × (String → String)),
      (chainEnd st lines).1 =
        match (entryLines lines).reverse.head? with
        | some e => e.hash
        | none => st.1 := by
  intro lines
  induction lines with
  | nil => intro st; rfl
  | cons ln rest ih =>
    intro st
    cases ln with
    | blank =>
      rw [show chainEnd st (Line.blank :: rest) = chainEnd st rest from rfl, ih]
      rfl
    | junk =>
      rw [show chainEnd st (Line.junk :: rest) = chainEnd st rest from rfl, ih]
      rfl
    | malformed =>
      rw [show chainEnd st (Line.malformed :: rest) = chainEnd st rest from rfl, ih]
      rfl
    | entry e =>
      rw [show chainEnd st (Line.entry e :: rest) = chainEnd (istep st (Line.entry e)) rest from rfl,
        ih]
      have hrev : (entryLines (Line.entry e :: rest)).reverse = (entryLines rest).reverse ++ [e] := by
        show (e :: entryLines rest).reverse = _
        simp
      rw [hrev, List.head?_append]
      cases hf : (entryLines rest).reverse.head? with
      | some e' => simp [hf]
      | none => simp [hf, istep]

/-- C6: every appended entry's `layer_previous_hash` is the hash of the most
recent prior entry of the same layer (empty string when none exists), and
its `previous_hash` is the hash of the most recent prior entry of any layer;
the stored hash is the recomputed content hash. -/
theorem append_layer_chain (H : EntryContent → String) (ev : String) (file : LedgerFile)
    (r : AppendReq) (h1 : r.layer ≠ "") (h2 : r.event_type ≠ "") :
    ∃ e : StoredEntry,
      appendE H ev file r = .ok (some (file.getD [] ++ [Line.entry e]), e.hash) ∧
      e.content.layer = r.layer ∧
      e.content.layer_previous_hash = lastLayerHash (file.getD []) r.layer ∧
      e.content.previous_hash = lastGlobalHash (file.getD []) ∧
      e.hash = H e.content := by
  refine
    ⟨⟨{ ts_utc := r.ts_utc,
        ts_unix := r.ts_unix,
        layer := r.layer,
        event_type := r.event_type,
        data := r.data,
        engine_version := ev,
        previous_hash := (indexTail (file.getD [])).1,
        layer_previous_hash := (indexTail (file.getD [])).2 r.layer,
        proof := r.proof },
      H { ts_utc := r.ts_utc,
          ts_unix := r.ts_unix,
          layer := r.layer,
          event_type := r.event_type,
          data := r.data,
          engine_version := ev,
          previous_hash := (indexTail (file.getD [])).1,
          layer_previous_hash := (indexTail (file.getD [])).2 r.layer,
          proof := r.proof }⟩,
      ?_, rfl, ?_, ?_, rfl⟩
  · simp [appendE, h1, h2]
  · show (indexTail (file.getD [])).2 r.layer = lastLayerHash (file.getD []) r.layer
    rw [indexTail, chainEnd_layer, lastLayerHash]
    rfl
  · show (indexTail (file.getD [])).1 = lastGlobalHash (file.getD [])
    rw [indexTail, chainEnd_global, lastGlobalHash]
    rfl

/-- Witness for C6: the A, B, A scenario — after appending to layer A then
layer B, a third append to layer A gets a `layer_previous_hash` equal to the
first A entry's hash, which differs from the B entry's hash. -/
theorem append_layer_chain_witness :
    ∃ e : StoredEntry,
      appendE demoHash "recursion-v1" (some demoFileAB) reqA2 =
        .ok (some (demoFileAB ++ [Line.entry e]), e.hash) ∧
      e.content.layer_previous_hash = demoE1.hash ∧
      demoE1.hash ≠ demoE2.hash := by
  obtain ⟨e, happ, hlayer, hlprev, hgprev, hh⟩ :=
    append_layer_chain demoHash "recursion-v1" (some demoFileAB) reqA2 (by decide) (by decide)
  refine ⟨e, happ, ?_, by decide⟩
  rw [hlprev]
  decide

end Ledger

namespace Ledger

/-- Mutating one stored entry's payload (its `data` field) while keeping
its stored `hash` — in any well-chained file, at any position — makes the
scan report ok = false with exactly one reason, a hash mismatch at exactly
that line, while every other line still verifies cleanly; the whole file is
still counted.  `hcoll` is collision-freeness of the content hash at the
mutated point. -/
theorem verify_mutation_core (H : EntryContent → String) (pre suf : List Line)
    (e : StoredEntry) (d' : String)
    (hch : ChainedFrom H chainInit (pre ++ Line.entry e :: suf))
    (hcoll : H { e.content with data := d' } ≠ e.hash) :
    (∀ g : List Line, (verifyL H g).total = countNonBlank g) ∧
    (verifyL H (pre ++ Line.entry ⟨{ e.content with data := d' }, e.hash⟩ :: suf)).ok = false ∧
    (verifyL H (pre ++ Line.entry ⟨{ e.content with data := d' }, e.hash⟩ :: suf)).total =
      pre.length + 1 + suf.length ∧
    (verifyL H (pre ++ Line.entry ⟨{ e.content with data := d' }, e.hash⟩ :: suf)).reasons =
      [s!"line {pre.length + 1}: hash mismatch"] := by
  have htotal : ∀ g : List Line, (verifyL H g).total = countNonBlank g := by
    intro g
    have := foldl_vstep_total H g vinit
    simpa [verifyL, vinit] using this
  obtain ⟨hpre, hrest⟩ := chained_split H pre (Line.entry e :: suf) chainInit hch
  cases hrest with
  | cons _ _ _ hprev hlayer hhash hsuf =>
    have hpre' : ChainedFrom H (vinit.prev_global, vinit.prev_layer) pre := hpre
    have hs1 := chained_foldl H pre vinit hpre'
    have hinit : ((vinit.prev_global, vinit.prev_layer) : String × (String → String)) = chainInit := rfl
    rw [hinit] at hs1
    have hfold :
        verifyL H (pre ++ Line.entry ⟨{ e.content with data := d' }, e.hash⟩ :: suf) =
          (Line.entry ⟨{ e.content with data := d' }, e.hash⟩ :: suf).foldl (vstep H)
            { idx := vinit.idx + pre.length, total := vinit.total + pre.length,
              ok := vinit.ok, reasons := vinit.reasons,
              prev_global := (chainEnd chainInit pre).1,
              prev_layer := (chainEnd chainInit pre).2 } := by
      rw [verifyL, List.foldl_append, hs1]
    have hne2 : ¬(({ e.content with data := d' } : EntryContent).previous_hash ≠
        (chainEnd chainInit pre).1) := not_not_intro hprev
    have hne3 : ¬(({ e.content with data := d' } : EntryContent).layer_previous_hash ≠
        (chainEnd chainInit pre).2 ({ e.content with data := d' } : EntryContent).layer) :=
      not_not_intro hlayer
    have hstep : vstep H
        { idx := vinit.idx + pre.length, total := vinit.total + pre.length,
          ok := vinit.ok, reasons := vinit.reasons,
          prev_global := (chainEnd chainInit pre).1,
          prev_layer := (chainEnd chainInit pre).2 }
        (Line.entry ⟨{ e.content with data := d' }, e.hash⟩) =
        { idx := pre.length + 1, total := pre.length + 1, ok := false,
          reasons := [s!"line {pre.length + 1}: hash mismatch"],
          prev_global := e.hash,
          prev_layer := fun l => if l = e.content.layer then e.hash
            else (chainEnd chainInit pre).2 l } := by
      simp [vstep, vinit, if_pos hcoll, if_neg hne2, if_neg hne3]
    have hsuf' : ChainedFrom H
        ((e.hash : String), fun l => if l = e.content.layer then e.hash
          else (chainEnd chainInit pre).2 l) suf := hsuf
    have hs2 := chained_foldl H suf
      { idx := pre.length + 1, total := pre.length + 1, ok := false,
        reasons := [s!"line {pre.length + 1}: hash mismatch"],
        prev_global := e.hash,
        prev_layer := fun l => if l = e.content.layer then e.hash
          else (chainEnd chainInit pre).2 l } hsuf'
    refine ⟨htotal, ?_, ?_, ?_⟩
    · rw [hfold, List.foldl_cons, hstep, hs2]
    · rw [hfold, List.foldl_cons, hstep, hs2]
    · rw [hfold, List.foldl_cons, hstep, hs2]

end Ledger


namespace Ledger

/-- The scanner's 1-based line index advances by one for every line,
blank or not. -/
theorem foldl_vstep_idx (H : EntryContent → String) :
    ∀ (g : List Line) (s : VState), (g.foldl (vstep H) s).idx = s.idx + g.length := by
  intro g
  induction g with
  | nil => intro s; simp
  | cons ln rest ih =>
    intro s
    rw [List.foldl_cons, ih]
    cases ln <;> simp [vstep] <;> omega

/-- Reasons are only ever appended: a reason present in the state stays in
the report however many further lines are scanned. -/
theorem foldl_vstep_mem (H : EntryContent → String) :
    ∀ (g : List Line) (s : VState) (r : String),
      r ∈ s.reasons → r ∈ (g.foldl (vstep H) s).reasons := by
  intro g
  induction g with
  | nil => intro s r h; simpa using h
  | cons ln rest ih =>
    intro s r h
    rw [List.foldl_cons]
    refine ih _ r ?_
    cases ln with
    | blank => exact h
    | junk => exact List.mem_append_left _ h
    | malformed => exact List.mem_append_left _ h
    | entry e => exact List.mem_append_left _ (List.mem_append_left _ (List.mem_append_left _ h))

/-- The overall flag is sticky: once false it stays false to the end of the
scan. -/
theorem foldl_vstep_ok_sticky (H : EntryContent → String) :
    ∀ (g : List Line) (s : VState), s.ok = false → (g.foldl (vstep H) s).ok = false := by
  intro g
  induction g with
  | nil => intro s h; simpa using h
  | cons ln rest ih =>
    intro s h
    rw [List.foldl_cons]
    refine ih _ ?_
    cases ln with
    | blank => exact h
    | junk => rfl
    | malformed => rfl
    | entry e => simp [vstep, h]

/-- On files whose lines all parse without raising, the full-model scan is
exactly the total fold. -/
theorem verifyScan_std (H : EntryContent → String) :
    ∀ (g : List Line) (s : VState),
      verifyScan H s (g.map JsonLine.std) = .ok (g.foldl (vstep H) s) := by
  intro g
  induction g with
  | nil => intro s; rfl
  | cons ln rest ih => intro s; exact ih (vstep H s ln)

/-- Any file containing a valid-JSON non-object line makes the scan raise
AttributeError, whatever else the file contains. -/
theorem verifyScan_nonobj (H : EntryContent → String) :
    ∀ (lines : List JsonLine) (s : VState),
      JsonLine.nonobj ∈ lines → verifyScan H s lines = .error "AttributeError" := by
  intro lines
  induction lines with
  | nil => intro s h; simp at h
  | cons ln rest ih =>
    intro s h
    cases ln with
    | nonobj => rfl
    | std l =>
      rcases List.mem_cons.mp h with h1 | h2
      · exact absurd h1 (by simp)
      · exact ih (vstep H s l) h2

end Ledger

namespace Ledger

/-- Counterexample to C7 as stated: corruption is not always recorded and
can be raised as an exception — a single ledger line that decodes to valid
non-object JSON (e.g. `42`) escapes the JSONDecodeError handler and makes
`verify()` raise an uncaught AttributeError (ledger.py line 230) instead of
returning a report recording that line. -/
theorem verify_raises_on_nonobject_line :
    verifyJsonE demoHash (some [JsonLine.nonobj]) = .error "AttributeError" := rfl

/-- C7 (amended): on every ledger file whose lines all parse without
raising (the `Line` cases), `verify` scans every line in order and never
aborts early: `total_entries` counts every non-blank line, and every error
is recorded with its exact 1-based line number and reason, whatever the
surrounding lines contain — an undecodable line ("invalid json"), a parsed
object without string hash/layer ("missing hash/layer"), a stored-hash
mismatch, a global-chain mismatch and a per-layer-chain mismatch, each
also forcing ok = false.  In particular, mutating one stored entry's
payload (hash field untouched) in a well-chained file yields ok = false
with exactly the one reason "line k: hash mismatch" at that line, all other
lines checking cleanly.  However a line that decodes to valid non-object
JSON is NOT recorded: `verify` raises an uncaught AttributeError on any
file containing one, and `verifyE` is exactly the restriction of the full
model `verifyJsonE` to files without such lines. -/
theorem verify_error_recording (H : EntryContent → String) (pre suf : List Line)
    (e : StoredEntry) (d' : String)
    (hch : ChainedFrom H chainInit (pre ++ Line.entry e :: suf))
    (hcoll : H { e.content with data := d' } ≠ e.hash) :
    (∀ g : List Line, (verifyL H g).total = countNonBlank g) ∧
    (∀ xs ys : List Line,
      s!"line {xs.length + 1}: invalid json" ∈ (verifyL H (xs ++ Line.junk :: ys)).reasons ∧
      (verifyL H (xs ++ Line.junk :: ys)).ok = false) ∧
    (∀ xs ys : List Line,
      s!"line {xs.length + 1}: missing hash/layer" ∈ (verifyL H (xs ++ Line.malformed :: ys)).reasons ∧
      (verifyL H (xs ++ Line.malformed :: ys)).ok = false) ∧
    (∀ (xs ys : List Line) (e2 : StoredEntry), H e2.content ≠ e2.hash →
      s!"line {xs.length + 1}: hash mismatch" ∈ (verifyL H (xs ++ Line.entry e2 :: ys)).reasons ∧
      (verifyL H (xs ++ Line.entry e2 :: ys)).ok = false) ∧
    (∀ (xs ys : List Line) (e2 : StoredEntry),
      e2.content.previous_hash ≠ (xs.foldl (vstep H) vinit).prev_global →
      s!"line {xs.length + 1}: global previous_hash mismatch" ∈
        (verifyL H (xs ++ Line.entry e2 :: ys)).reasons ∧
      (verifyL H (xs ++ Line.entry e2 :: ys)).ok = false) ∧
    (∀ (xs ys : List Line) (e2 : StoredEntry),
      e2.content.layer_previous_hash ≠
        (xs.foldl (vstep H) vinit).prev_layer e2.content.layer →
      s!"line {xs.length + 1}: layer_previous_hash mismatch" ∈
        (verifyL H (xs ++ Line.entry e2 :: ys)).reasons ∧
      (verifyL H (xs ++ Line.entry e2 :: ys)).ok = false) ∧
    ((verifyL H (pre ++ Line.entry ⟨{ e.content with data := d' }, e.hash⟩ :: suf)).ok = false ∧
     (verifyL H (pre ++ Line.entry ⟨{ e.content with data := d' }, e.hash⟩ :: suf)).total =
       pre.length + 1 + suf.length ∧
     (verifyL H (pre ++ Line.entry ⟨{ e.content with data := d' }, e.hash⟩ :: suf)).reasons =
       [s!"line {pre.length + 1}: hash mismatch"]) ∧
    (∀ lines : List JsonLine, JsonLine.nonobj ∈ lines →
      verifyJsonE H (some lines) = .error "AttributeError") ∧
    (∀ g : List Line, verifyJsonE H (some (g.map JsonLine.std)) = verifyE H (some g)) := by
  have hcore := verify_mutation_core H pre suf e d' hch hcoll
  have hidx : ∀ xs : List Line, (xs.foldl (vstep H) vinit).idx = xs.length := by
    intro xs
    have := foldl_vstep_idx H xs vinit
    simpa [vinit] using this
  have hsplit : ∀ (xs ys : List Line) (ln : Line),
      verifyL H (xs ++ ln :: ys) = ys.foldl (vstep H) (vstep H (xs.foldl (vstep H) vinit) ln) := by
    intro xs ys ln
    rw [verifyL, List.foldl_append, List.foldl_cons]
  refine ⟨hcore.1, ?_, ?_, ?_, ?_, ?_, ⟨hcore.2.1, hcore.2.2.1, hcore.2.2.2⟩, ?_, ?_⟩
  · intro xs ys
    rw [hsplit]
    refine ⟨foldl_vstep_mem H ys _ _ ?_, foldl_vstep_ok_sticky H ys _ rfl⟩
    simp [vstep, hidx xs]
  · intro xs ys
    rw [hsplit]
    refine ⟨foldl_vstep_mem H ys _ _ ?_, foldl_vstep_ok_sticky H ys _ rfl⟩
    simp [vstep, hidx xs]
  · intro xs ys e2 hne
    rw [hsplit]
    refine ⟨foldl_vstep_mem H ys _ _ ?_, foldl_vstep_ok_sticky H ys _ ?_⟩
    · by_cases hA : e2.content.previous_hash ≠ (xs.foldl (vstep H) vinit).prev_global <;>
        by_cases hB : e2.content.layer_previous_hash ≠
          (xs.foldl (vstep H) vinit).prev_layer e2.content.layer <;>
        simp [vstep, hne, hA, hB, hidx xs]
    · by_cases hA : e2.content.previous_hash ≠ (xs.foldl (vstep H) vinit).prev_global <;>
        by_cases hB : e2.content.layer_previous_hash ≠
          (xs.foldl (vstep H) vinit).prev_layer e2.content.layer <;>
        simp [vstep, hne, hA, hB]
  · intro xs ys e2 hne
    rw [hsplit]
    refine ⟨foldl_vstep_mem H ys _ _ ?_, foldl_vstep_ok_sticky H ys _ ?_⟩
    · by_cases hA : H e2.content ≠ e2.hash <;>
        by_cases hB : e2.content.layer_previous_hash ≠
          (xs.foldl (vstep H) vinit).prev_layer e2.content.layer <;>
        simp [vstep, hne, hA, hB, hidx xs]
    · by_cases hA : H e2.content ≠ e2.hash <;>
        by_cases hB : e2.content.layer_previous_hash ≠
          (xs.foldl (vstep H) vinit).prev_layer e2.content.layer <;>
        simp [vstep, hne, hA, hB]
  · intro xs ys e2 hne
    rw [hsplit]
    refine ⟨foldl_vstep_mem H ys _ _ ?_, foldl_vstep_ok_sticky H ys _ ?_⟩
    · by_cases hA : H e2.content ≠ e2.hash <;>
        by_cases hB : e2.content.previous_hash ≠ (xs.foldl (vstep H) vinit).prev_global <;>
        simp [vstep, hne, hA, hB, hidx xs]
    · by_cases hA : H e2.content ≠ e2.hash <;>
        by_cases hB : e2.content.previous_hash ≠ (xs.foldl (vstep H) vinit).prev_global <;>
        simp [vstep, hne, hA, hB]
  · intro lines hm
    simp [verifyJsonE, verifyScan_nonobj H lines vinit hm]
  · intro g
    simp [verifyJsonE, verifyScan_std H g vinit, verifyE, verifyL]

/-- Witness for C7 (amended), all at concrete inputs: the payload-mutated
demo ledger reports exactly "line 1: hash mismatch" with both lines
counted; an undecodable line after a valid entry is recorded as
"line 2: invalid json"; and a file with a non-object JSON line makes the
full-model verify raise AttributeError. -/
theorem verify_error_recording_witness :
    (verifyL demoHash demoFileMut).ok = false ∧
    (verifyL demoHash demoFileMut).total = 2 ∧
    (verifyL demoHash demoFileMut).reasons = ["line 1: hash mismatch"] ∧
    "line 2: invalid json" ∈ (verifyL demoHash [Line.entry demoE1, Line.junk]).reasons ∧
    verifyJsonE demoHash (some [JsonLine.std (Line.entry demoE1), JsonLine.nonobj]) =
      .error "AttributeError" := by
  have hch : ChainedFrom demoHash chainInit
      (([] : List Line) ++ Line.entry demoE1 :: [Line.entry demoE2]) := by
    refine ChainedFrom.cons _ _ _ rfl rfl rfl ?_
    refine ChainedFrom.cons _ _ _ rfl ?_ rfl (ChainedFrom.nil _)
    decide
  obtain ⟨hA, hJ, hM, hH, hG, hL, hC, hN, hR⟩ :=
    verify_error_recording demoHash [] [Line.entry demoE2] demoE1 "x" hch (by decide)
  refine ⟨hC.1, hC.2.1, hC.2.2.trans (by decide), ?_, hN _ (by simp)⟩
  have hj := (hJ [Line.entry demoE1] []).1
  have hstr : (s!"line {([Line.entry demoE1] : List Line).length + 1}: invalid json") =
      "line 2: invalid json" := by decide
  rw [hstr] at hj
  exact hj

end Ledger
